import Mathlib

/-
Verification of the recursive tabled solving engine
(src/chalk-solve/src/recursive.rs) against its specification.

The engine's own dispatch and fixed-point loop (`solve_goal`,
`solve_new_subgoal`, `solve_root_goal`, `MergeWith`, `RecursiveContext::new`)
are translated from recursive.rs.  The submodules it uses (stack.rs,
search_graph.rs, lib.rs, solve.rs, combine.rs) are not part of this
repository snapshot; those components are modelled from the spec
(sections 3, 4.1, 4.2, 4.5a) and are marked as such in their doc comments.
-/

namespace ChalkRecursive

/-- Modelled from the spec (section 3, lib.rs is missing): a canonical goal is
identified by its normalized content (here an opaque numeric key) together
with the count of canonical binder slots (`goal.canonical.binders`). -/
structure UCanonicalGoal where
  id : Nat
  binders : Nat
deriving DecidableEq, Repr

/-- Modelled from the spec (section 3): a substitution for the canonically
numbered existential slots; terms are opaque numeric codes. -/
abbrev Subst := List Nat

/-- Modelled from the spec (section 3): a substitution together with residual
constraints (`ConstrainedSubst { subst, constraints }`). -/
structure ConstrainedSubst where
  subst : Subst
  constraints : List Nat
deriving DecidableEq, Repr

/-- Modelled from the spec: a canonicalized value together with its binder
count (`Canonical { value, binders }`). -/
structure CanonicalConstrainedSubst where
  value : ConstrainedSubst
  binders : Nat
deriving DecidableEq, Repr

/-- Modelled from the spec (section 3, lib.rs is missing): a `Solution` is
either `Unique(substitution, residual constraints)` or
`Ambiguous(optional best-guess)`; the guidance payload of `Ambig` plays no
role in the engine's control flow and is omitted. -/
inductive Solution where
  | Unique : CanonicalConstrainedSubst → Solution
  | Ambig : Solution
deriving DecidableEq, Repr

/-- Modelled from the spec: `Solution::is_ambig`. -/
def Solution.is_ambig : Solution → Bool
  | .Unique _ => false
  | .Ambig => true

/-- Modelled from the spec (solve.rs is missing): clause priority attached to
a candidate solution. -/
inductive ClausePriority where
  | High
  | Low
deriving DecidableEq, Repr

/-- Modelled from the spec (section 7): the explicit "no value" failure
(`NoSolution`), a normal outcome meaning the goal is not provable. -/
inductive NoSolution where
  | noSolution
deriving DecidableEq, Repr

/-- `Fallible<T> = Result<T, NoSolution>`. -/
abbrev Fallible (α : Type) := Except NoSolution α

instance {ε α : Type} [DecidableEq ε] [DecidableEq α] : DecidableEq (Except ε α) := by
  intro a b
  cases a <;> cases b
  case error.error e e' =>
    exact if h : e = e' then .isTrue (by rw [h]) else .isFalse (by simp [h])
  case error.ok e v => exact .isFalse (by simp)
  case ok.error v e => exact .isFalse (by simp)
  case ok.ok v v' =>
    exact if h : v = v' then .isTrue (by rw [h]) else .isFalse (by simp [h])

/-- Translated from recursive.rs lines 50-61: the `MergeWith` extension trait
for `Fallible` results: an `Ok` survives an `Err` in either order, two `Ok`s
are combined with `f`, and two `Err`s yield the second error. -/
def Fallible.merge_with {α : Type} (self other : Fallible α) (f : α → α → α) :
    Fallible α :=
  match self, other with
  | .error _, .ok v => .ok v
  | .ok v, .error _ => .ok v
  | .ok v1, .ok v2 => .ok (f v1 v2)
  | .error _, .error e => .error e

/-- Modelled from the spec (section 3): the trivial (identity) substitution of
a canonical goal maps each canonical slot to itself. -/
def UCanonicalGoal.trivial_substitution (g : UCanonicalGoal) : Subst :=
  List.range g.binders

/-- Modelled from the spec (section 3, lib.rs is missing): `Minimums` is a
pair of DFN bounds; `none` stands for `DepthFirstNumber::MAX` (no dependency
recorded yet). -/
structure Minimums where
  positive : Option Nat
  negative : Option Nat
deriving DecidableEq, Repr

/-- Minimum of two DFN bounds, `none` being the top element (`MAX`). -/
def minDfn : Option Nat → Option Nat → Option Nat
  | none, b => b
  | some a, none => some a
  | some a, some b => some (min a b)

/-- Modelled from the spec: `Minimums::new()` records no dependency. -/
def Minimums.new : Minimums := ⟨none, none⟩

/-- Modelled from the spec: `Minimums::update_from` lowers each bound to the
other accumulator's bound. -/
def Minimums.update_from (m other : Minimums) : Minimums :=
  ⟨minDfn m.positive other.positive, minDfn m.negative other.negative⟩

/-- The test `minimums.positive >= dfn` (recursive.rs line 248), with `none`
playing `MAX` and therefore always ≥. -/
def dfnLeBound (dfn : Nat) : Option Nat → Bool
  | none => true
  | some p => dfn ≤ p

/-- Modelled from the spec (section 4.1, stack.rs is missing): a stack entry
records whether the open goal is coinductive (fixed at push time) and a
mutable flag recording whether any deeper goal looped back to it. -/
structure StackEntry where
  coinductive_goal : Bool
  cycle : Bool
deriving DecidableEq, Repr

instance : Inhabited StackEntry := ⟨⟨false, false⟩⟩

/-- Modelled from the spec (section 4.1): the explicit LIFO of in-progress
goals, with the configured overflow depth. Index 0 is the bottom. -/
structure Stack where
  entries : List StackEntry
  overflow_depth : Nat
deriving DecidableEq, Repr

/-- Modelled from the spec: `Stack::new(overflow_depth)`. -/
def Stack.new (overflow_depth : Nat) : Stack := ⟨[], overflow_depth⟩

/-- Modelled from the spec (section 4.1): pushing beyond the configured depth
limit signals a fatal overflow error (`none` here); otherwise the new entry
starts with a cleared cycle flag and the new depth is returned. -/
def Stack.push (s : Stack) (coinductive_goal : Bool) : Option (Stack × Nat) :=
  if s.entries.length ≥ s.overflow_depth then none
  else some (⟨s.entries ++ [⟨coinductive_goal, false⟩], s.overflow_depth⟩,
    s.entries.length)

/-- Modelled from the spec: `pop(depth)` pops the most recently pushed entry
(strict LIFO discipline: `depth` is the top). -/
def Stack.pop (s : Stack) (depth : Nat) : Stack :=
  ⟨s.entries.take depth, s.overflow_depth⟩

/-- Modelled from the spec: `is_empty()`. -/
def Stack.is_empty (s : Stack) : Bool := s.entries.isEmpty

/-- Modelled from the spec: `coinductive_cycle_from(depth)` is true iff every
stack entry from `depth` to the top is marked coinductive. -/
def Stack.coinductive_cycle_from (s : Stack) (depth : Nat) : Bool :=
  (s.entries.drop depth).all (·.coinductive_goal)

/-- Modelled from the spec: set the cycle flag of the entry at `depth`. -/
def Stack.flag_cycle (s : Stack) (depth : Nat) : Stack :=
  ⟨s.entries.set depth ⟨((s.entries.getD depth default).coinductive_goal), true⟩,
    s.overflow_depth⟩

/-- Modelled from the spec: `read_and_reset_cycle_flag(depth)` atomically
reads and clears the flag at `depth`. -/
def Stack.read_and_reset_cycle_flag (s : Stack) (depth : Nat) : Bool × Stack :=
  let e := s.entries.getD depth default
  (e.cycle, ⟨s.entries.set depth ⟨e.coinductive_goal, false⟩, s.overflow_depth⟩)

/-- Modelled from the spec (section 4.2, search_graph.rs is missing): a
search-graph node holds the goal, its tentative solution and priority, the
accumulated `Minimums` ("links"), and the stack depth while still open.
A fresh node's solution is the error value ("the initial result for this
table is error", recursive.rs line 230) and its links record its own DFN as
the initial positive bound, so that cycle participants that consult this
open entry record their dependency on it. -/
structure Node where
  goal : UCanonicalGoal
  solution : Fallible Solution
  solution_priority : ClausePriority
  links : Minimums
  stack_depth : Option Nat
deriving DecidableEq, Repr

instance : Inhabited Node :=
  ⟨⟨⟨0, 0⟩, .error .noSolution, .High, Minimums.new, none⟩⟩

/-- The long-term cache: goal → finalized solution, as an association list
(later insertions shadow earlier ones). -/
abbrev Cache := List (UCanonicalGoal × Fallible Solution)

/-- Lookup in the cache. -/
def cacheLookup (cache : Cache) (g : UCanonicalGoal) : Option (Fallible Solution) :=
  (cache.find? (fun p => p.1 = g)).map (·.2)

/-- Modelled from the spec (section 4.2): the append-only table of discovered
goals keyed by discovery order.  Nodes are kept as an association list from
DFN to node; `next_dfn` is the monotonically increasing discovery counter. -/
structure SearchGraph where
  nodes : List (Nat × Node)
  next_dfn : Nat
deriving DecidableEq, Repr

/-- Modelled from the spec: an empty search graph. -/
def SearchGraph.new : SearchGraph := ⟨[], 0⟩

/-- Modelled from the spec: `lookup(goal) -> Option<dfn>`. -/
def SearchGraph.lookup (sg : SearchGraph) (g : UCanonicalGoal) : Option Nat :=
  (sg.nodes.find? (fun p => p.2.goal = g)).map (·.1)

/-- Read the node at `dfn` (present whenever `dfn` was looked up). -/
def SearchGraph.get (sg : SearchGraph) (dfn : Nat) : Node :=
  ((sg.nodes.find? (fun p => p.1 = dfn)).map (·.2)).getD default

/-- Whether the graph still holds an entry for `dfn`. -/
def SearchGraph.contains (sg : SearchGraph) (dfn : Nat) : Bool :=
  (sg.nodes.find? (fun p => p.1 = dfn)).isSome

/-- Modelled from the spec: `insert(goal, depth) -> dfn` appends a fresh node
(initial solution is the error value, initial positive link is the new DFN
itself, priority `High`) and returns the assigned DFN. -/
def SearchGraph.insert (sg : SearchGraph) (g : UCanonicalGoal) (depth : Nat) :
    SearchGraph × Nat :=
  let dfn := sg.next_dfn
  (⟨sg.nodes ++ [(dfn, ⟨g, .error .noSolution, .High, ⟨some dfn, none⟩, some depth⟩)],
    dfn + 1⟩, dfn)

/-- Update the node at `dfn` with `f`. -/
def SearchGraph.modify (sg : SearchGraph) (dfn : Nat) (f : Node → Node) :
    SearchGraph :=
  ⟨sg.nodes.map (fun p => if p.1 = dfn then (p.1, f p.2) else p), sg.next_dfn⟩

/-- Store a tentative solution and its priority at `dfn`
(recursive.rs lines 144-145 and 161-162). -/
def SearchGraph.set_solution (sg : SearchGraph) (dfn : Nat)
    (sol : Fallible Solution) (prio : ClausePriority) : SearchGraph :=
  sg.modify dfn (fun n => { n with solution := sol, solution_priority := prio })

/-- Modelled from the spec: `rollback_to(dfn)` removes entry `dfn` and every
entry discovered after it. -/
def SearchGraph.rollback_to (sg : SearchGraph) (dfn : Nat) : SearchGraph :=
  ⟨sg.nodes.filter (fun p => p.1 < dfn), sg.next_dfn⟩

/-- Modelled from the spec: `move_to_cache(dfn, cache)` removes entry `dfn`
and commits its solution into the long-term cache. -/
def SearchGraph.move_to_cache (sg : SearchGraph) (dfn : Nat) (cache : Cache) :
    SearchGraph × Cache :=
  match (sg.nodes.find? (fun p => p.1 = dfn)).map (·.2) with
  | some n =>
    (⟨sg.nodes.filter (fun p => p.1 ≠ dfn), sg.next_dfn⟩, (n.goal, n.solution) :: cache)
  | none => (sg, cache)

/-- Translated from recursive.rs lines 18-31: the session-scoped state
bundling stack, search graph, cache, and the caching flag. -/
structure RecursiveContext where
  stack : Stack
  search_graph : SearchGraph
  cache : Cache
  caching_enabled : Bool
deriving DecidableEq, Repr

/-- Translated from recursive.rs lines 64-71: `RecursiveContext::new`. -/
def RecursiveContext.new (overflow_depth : Nat) (caching_enabled : Bool) :
    RecursiveContext :=
  ⟨Stack.new overflow_depth, SearchGraph.new, [], caching_enabled⟩

/-- Modelled from the spec (sections 4.5a and 6, solve.rs and the clause
machinery are missing): a candidate derivation offered by the external
clause/unification collaborator: the subgoals to prove, and the answer
substitution this derivation assigns to the goal's canonical slots. -/
structure Rule where
  subgoals : List UCanonicalGoal
  subst : Subst
deriving DecidableEq, Repr

/-- Modelled from the spec (section 6): the deterministic, pure declaration
database collaborator: candidate derivations per goal, and coinductivity of
a goal (`goal.is_coinductive(self.program)`). -/
structure Program where
  rules : UCanonicalGoal → List Rule
  goal_is_coinductive : UCanonicalGoal → Bool

/-- Modelled from the spec (solve.rs is missing): the outcome of one
candidate derivation, given whether any of its subgoals was ambiguous:
a definite derivation yields `Unique` with the rule's substitution and no
constraints; an under-determined one yields `Ambig`. -/
def rule_solution (goal : UCanonicalGoal) (r : Rule) (amb : Bool) :
    Solution × ClausePriority :=
  if amb then (Solution.Ambig, ClausePriority.High)
  else (Solution.Unique ⟨⟨r.subst, []⟩, goal.binders⟩, ClausePriority.High)

/-- Modelled from the spec (combine.rs is missing): merging two successful
candidate answers keeps equal solutions and declares distinct ones
ambiguous. -/
def combine_with_priority :
    Solution × ClausePriority → Solution × ClausePriority →
    Solution × ClausePriority
  | (s, p), (t, _) => if s = t then (s, p) else (Solution.Ambig, ClausePriority.High)

/-- Failure modes that abort the current top-level query: the fatal overflow
signalled by the stack depth limit, the (model-only) exhaustion of
evaluation fuel, and the violated `assert!` in `solve_root_goal`. -/
inductive Abort where
  | overflow
  | fuelEmpty
  | assertFailed
deriving DecidableEq, Repr

/-- The shape of `solve_goal` at a fixed fuel: context and accumulator in,
fallible solution plus updated context and accumulator out. -/
abbrev SolveFn :=
  RecursiveContext → UCanonicalGoal → Minimums →
    Except Abort (Fallible Solution × RecursiveContext × Minimums)

/-- Modelled from the spec (section 4.5a, fulfillment machinery is missing):
prove the subgoals of one candidate derivation in order with `sg`, threading
the context and the minimums accumulator; the first failing subgoal fails
the derivation, and the boolean records whether any subgoal was ambiguous. -/
def solve_subgoals (sg : SolveFn) :
    RecursiveContext → List UCanonicalGoal → Minimums →
      Except Abort (Fallible Bool × RecursiveContext × Minimums)
  | ctx, [], m => .ok (.ok false, ctx, m)
  | ctx, g :: gs, m =>
    match sg ctx g m with
    | .error a => .error a
    | .ok (.error e, ctx1, m1) => .ok (.error e, ctx1, m1)
    | .ok (.ok s, ctx1, m1) =>
      match solve_subgoals sg ctx1 gs m1 with
      | .error a => .error a
      | .ok (.error e, ctx2, m2) => .ok (.error e, ctx2, m2)
      | .ok (.ok amb, ctx2, m2) => .ok (.ok (s.is_ambig || amb), ctx2, m2)

/-- Modelled from the spec (section 4.5a): evaluate the candidate derivations
in order, merging their outcomes with `merge_with`/`combine_with_priority`
into the accumulated candidate. -/
def solve_candidates (sg : SolveFn) (goal : UCanonicalGoal) :
    RecursiveContext → List Rule → Minimums →
      Fallible (Solution × ClausePriority) →
      Except Abort (Fallible (Solution × ClausePriority) × RecursiveContext × Minimums)
  | ctx, [], m, acc => .ok (acc, ctx, m)
  | ctx, r :: rs, m, acc =>
    match solve_subgoals sg ctx r.subgoals m with
    | .error a => .error a
    | .ok (res, ctx1, m1) =>
      let cand : Fallible (Solution × ClausePriority) :=
        match res with
        | .error e => .error e
        | .ok amb => .ok (rule_solution goal r amb)
      solve_candidates sg goal ctx1 rs m1 (acc.merge_with cand combine_with_priority)

/-- Modelled from the spec (section 4.5a, solve.rs is missing): one solve
iteration expands the goal into its candidate derivations via the external
collaborator, recursively solving subgoals with `sg`, and produces a
candidate `(solution, priority)` pair together with the minimums gathered
during this attempt. -/
def solve_iteration (p : Program) (sg : SolveFn) (ctx : RecursiveContext)
    (goal : UCanonicalGoal) (m : Minimums) :
    Except Abort ((Fallible Solution × ClausePriority) × RecursiveContext × Minimums) :=
  match solve_candidates sg goal ctx (p.rules goal) m (.error .noSolution) with
  | .error a => .error a
  | .ok (.error e, ctx1, m1) => .ok ((.error e, .High), ctx1, m1)
  | .ok (.ok (s, prio), ctx1, m1) => .ok ((.ok s, prio), ctx1, m1)

/-- Translated from recursive.rs lines 156-159: whether a fallible candidate
answer is ambiguous (an error is not). -/
def fallible_is_ambig : Fallible Solution → Bool
  | .ok s => s.is_ambig
  | .error _ => false

/-- Translated from recursive.rs lines 110-174: the fixed-point loop of
`solve_new_subgoal`.  Each round runs one solve iteration with a fresh
minimums accumulator; if the goal's own cycle flag was not set, the candidate
is stored as final and the loop returns; if the candidate equals the stored
tentative solution, a fixed point is reached; otherwise the candidate is
stored, an ambiguous candidate stops the loop, and a non-ambiguous one rolls
the search graph back to `dfn + 1` before the next round.  The fuel bounds
the number of rounds (the model's stand-in for the Rust `loop`). -/
def solve_new_subgoal (p : Program) (sg : SolveFn) :
    Nat → RecursiveContext → UCanonicalGoal → Nat → Nat →
      Except Abort (Minimums × RecursiveContext)
  | 0, _, _, _, _ => .error .fuelEmpty
  | fuel + 1, ctx, canonical_goal, depth, dfn =>
    match solve_iteration p sg ctx canonical_goal Minimums.new with
    | .error a => .error a
    | .ok ((current_answer, current_prio), ctx1, minimums) =>
      let rr := ctx1.stack.read_and_reset_cycle_flag depth
      let ctx2 : RecursiveContext := { ctx1 with stack := rr.2 }
      if rr.1 = false then
        .ok (minimums,
          { ctx2 with
            search_graph := ctx2.search_graph.set_solution dfn current_answer current_prio })
      else if (ctx2.search_graph.get dfn).solution = current_answer then
        .ok (minimums, ctx2)
      else
        let ctx3 : RecursiveContext :=
          { ctx2 with
            search_graph := ctx2.search_graph.set_solution dfn current_answer current_prio }
        if fallible_is_ambig current_answer then
          .ok (minimums, ctx3)
        else
          solve_new_subgoal p sg fuel
            { ctx3 with search_graph := ctx3.search_graph.rollback_to (dfn + 1) }
            canonical_goal depth dfn

/-- Translated from recursive.rs lines 181-265: the core dispatch.  Check the
cache; then the search graph (coinductive-cycle short-circuit for open
entries, else flag the ancestor's cycle and return the tentative solution,
merging the entry's links into the accumulator); otherwise push the goal,
insert it into the search graph, run the fixed-point loop, pop, and decide
cache-or-rollback.  The recursion fuel decreases at each newly discovered
goal; the stack depth limit turns runaway recursion into `Abort.overflow`. -/
def solve_goal (p : Program) : Nat → SolveFn
  | 0, _, _, _ => .error .fuelEmpty
  | fuel + 1, ctx, goal, minimums =>
    match cacheLookup ctx.cache goal with
    | some value => .ok (value, ctx, minimums)
    | none =>
      match ctx.search_graph.lookup goal with
      | some dfn =>
        match (ctx.search_graph.get dfn).stack_depth with
        | some depth =>
          if ctx.stack.coinductive_cycle_from depth then
            .ok (.ok (Solution.Unique ⟨⟨goal.trivial_substitution, []⟩, goal.binders⟩),
              ctx, minimums)
          else
            let ctx1 : RecursiveContext := { ctx with stack := ctx.stack.flag_cycle depth }
            .ok ((ctx1.search_graph.get dfn).solution, ctx1,
              minimums.update_from (ctx1.search_graph.get dfn).links)
        | none =>
          .ok ((ctx.search_graph.get dfn).solution, ctx,
            minimums.update_from (ctx.search_graph.get dfn).links)
      | none =>
        let coinductive_goal := p.goal_is_coinductive goal
        match ctx.stack.push coinductive_goal with
        | none => .error .overflow
        | some (stack1, depth) =>
          let ins := ctx.search_graph.insert goal depth
          let dfn := ins.2
          let ctx1 : RecursiveContext := { ctx with stack := stack1, search_graph := ins.1 }
          match solve_new_subgoal p
              (fun c g m => solve_goal p fuel c g m) fuel ctx1 goal depth dfn with
          | .error a => .error a
          | .ok (subgoal_minimums, ctx2) =>
            let g3 := (ctx2.search_graph.modify dfn
              (fun n => { n with links := subgoal_minimums, stack_depth := none }))
            let ctx3 : RecursiveContext :=
              { ctx2 with search_graph := g3, stack := ctx2.stack.pop depth }
            let minimums1 := minimums.update_from subgoal_minimums
            let result := (ctx3.search_graph.get dfn).solution
            let ctx4 : RecursiveContext :=
              if dfnLeBound dfn subgoal_minimums.positive then
                if ctx3.caching_enabled then
                  let mc := ctx3.search_graph.move_to_cache dfn ctx3.cache
                  { ctx3 with search_graph := mc.1, cache := mc.2 }
                else
                  { ctx3 with search_graph := ctx3.search_graph.rollback_to dfn }
              else ctx3
            .ok (result, ctx4, minimums1)

/-- Observation-instrumented copy of the fixed-point loop of
`solve_new_subgoal` (recursive.rs lines 110-174): identical control flow and
state evolution, additionally reporting the number of loop iterations
executed and the list of tentative solutions stored into the goal's
search-graph entry, in order.  `solve_new_subgoal_traced_erase` below proves
that erasing the instrumentation gives back `solve_new_subgoal`. -/
def solve_new_subgoal_traced (p : Program) (sg : SolveFn) :
    Nat → RecursiveContext → UCanonicalGoal → Nat → Nat →
      Except Abort ((Minimums × RecursiveContext) × Nat × List (Fallible Solution))
  | 0, _, _, _, _ => .error .fuelEmpty
  | fuel + 1, ctx, canonical_goal, depth, dfn =>
    match solve_iteration p sg ctx canonical_goal Minimums.new with
    | .error a => .error a
    | .ok ((current_answer, current_prio), ctx1, minimums) =>
      let rr := ctx1.stack.read_and_reset_cycle_flag depth
      let ctx2 : RecursiveContext := { ctx1 with stack := rr.2 }
      if rr.1 = false then
        .ok ((minimums,
          { ctx2 with
            search_graph := ctx2.search_graph.set_solution dfn current_answer current_prio }),
          1, [current_answer])
      else if (ctx2.search_graph.get dfn).solution = current_answer then
        .ok ((minimums, ctx2), 1, [])
      else
        let ctx3 : RecursiveContext :=
          { ctx2 with
            search_graph := ctx2.search_graph.set_solution dfn current_answer current_prio }
        if fallible_is_ambig current_answer then
          .ok ((minimums, ctx3), 1, [current_answer])
        else
          match solve_new_subgoal_traced p sg fuel
              { ctx3 with search_graph := ctx3.search_graph.rollback_to (dfn + 1) }
              canonical_goal depth dfn with
          | .error a => .error a
          | .ok (res, iters, trace) => .ok (res, iters + 1, current_answer :: trace)

/-- The quality rank of a tentative answer in the partial order used by the
termination argument of the fixed-point loop (recursive.rs lines 127-131 and
spec section 4.5): no value < Unique < Ambiguous. -/
def ordRank : Fallible Solution → Nat
  | .error _ => 0
  | .ok (.Unique _) => 1
  | .ok .Ambig => 2

/-- Translated from recursive.rs lines 100-108: `solve_root_goal` requires
the stack to be empty, starts a fresh minimums accumulator, and delegates to
`solve_goal`. -/
def solve_root_goal (p : Program) (fuel : Nat) (ctx : RecursiveContext)
    (canonical_goal : UCanonicalGoal) :
    Except Abort (Fallible Solution × RecursiveContext × Minimums) :=
  if ctx.stack.is_empty then
    solve_goal p fuel ctx canonical_goal Minimums.new
  else
    .error .assertFailed

/-- Erasing the instrumentation of the traced fixed-point loop gives exactly
`solve_new_subgoal`. -/
theorem solve_new_subgoal_traced_erase (p : Program) (sg : SolveFn) :
    ∀ (fuel : Nat) (ctx : RecursiveContext) (g : UCanonicalGoal) (depth dfn : Nat),
      (solve_new_subgoal_traced p sg fuel ctx g depth dfn).map (·.1) =
        solve_new_subgoal p sg fuel ctx g depth dfn := by
  intro fuel
  induction fuel with
  | zero => intro ctx g depth dfn; rfl
  | succ n ih =>
    intro ctx g depth dfn
    rw [solve_new_subgoal_traced, solve_new_subgoal]
    rcases hit : solve_iteration p sg ctx g Minimums.new with a | ⟨⟨ans, prio⟩, ctx1, m⟩
    · rfl
    · simp only []
      by_cases hflag : (ctx1.stack.read_and_reset_cycle_flag depth).1 = false
      · rw [if_pos hflag, if_pos hflag]
        rfl
      · rw [if_neg hflag, if_neg hflag]
        by_cases hfix : (ctx1.search_graph.get dfn).solution = ans
        · rw [if_pos hfix, if_pos hfix]
          rfl
        · rw [if_neg hfix, if_neg hfix]
          by_cases hamb : fallible_is_ambig ans = true
          · rw [if_pos hamb, if_pos hamb]
            rfl
          · rw [if_neg hamb, if_neg hamb]
            rw [← ih]
            rcases solve_new_subgoal_traced p sg n _ g depth dfn with a | ⟨r, i2, t⟩ <;>
              simp [Except.map]

/-- The traced loop executes at most one iteration more than the number of
tentative solutions it stores. -/
theorem iters_le_trace_length (p : Program) (sg : SolveFn) :
    ∀ (fuel : Nat) (ctx : RecursiveContext) (g : UCanonicalGoal) (depth dfn : Nat)
      (res : Minimums × RecursiveContext) (iters : Nat) (trace : List (Fallible Solution)),
      solve_new_subgoal_traced p sg fuel ctx g depth dfn = .ok (res, iters, trace) →
      iters ≤ trace.length + 1 := by
  intro fuel
  induction fuel with
  | zero =>
    intro ctx g depth dfn res iters trace h
    exact absurd h (by simp [solve_new_subgoal_traced])
  | succ n ih =>
    intro ctx g depth dfn res iters trace h
    rw [solve_new_subgoal_traced] at h
    rcases hit : solve_iteration p sg ctx g Minimums.new with a | ⟨⟨ans, prio⟩, ctx1, m⟩ <;>
      rw [hit] at h
    · exact absurd h (by simp)
    · simp only [] at h
      by_cases hflag : (ctx1.stack.read_and_reset_cycle_flag depth).1 = false
      · rw [if_pos hflag] at h
        cases h
        simp
      · rw [if_neg hflag] at h
        by_cases hfix : (ctx1.search_graph.get dfn).solution = ans
        · rw [if_pos hfix] at h
          cases h
          simp
        · rw [if_neg hfix] at h
          by_cases hamb : fallible_is_ambig ans = true
          · rw [if_pos hamb] at h
            cases h
            simp
          · rw [if_neg hamb] at h
            split at h
            · exact absurd h (by simp)
            · cases h
              simp only [List.length_cons]
              exact Nat.succ_le_succ (ih _ g depth dfn _ _ _ (by assumption))

/-- Every answer rank is at most 2 (the order no value < Unique < Ambiguous
has height 3). -/
theorem ordRank_le_two (a : Fallible Solution) : ordRank a ≤ 2 := by
  rcases a with e | s
  · simp [ordRank]
  · cases s <;> simp [ordRank]

/-- A list of answers strictly increasing in rank has at most three
elements. -/
theorem chain_lt_length_le (l : List (Fallible Solution))
    (h : List.Chain' (fun a b => ordRank a < ordRank b) l) : l.length ≤ 3 := by
  match l with
  | [] => simp
  | [_] => simp
  | [_, _] => simp
  | [_, _, _] => simp
  | a :: b :: c :: d :: rest =>
    rw [List.chain'_cons] at h
    obtain ⟨hab, h⟩ := h
    rw [List.chain'_cons] at h
    obtain ⟨hbc, h⟩ := h
    rw [List.chain'_cons] at h
    obtain ⟨hcd, -⟩ := h
    have ha := ordRank_le_two a
    have hd := ordRank_le_two d
    omega

/-- Claim C10: the `merge_with` combinator on `Fallible` results satisfies:
merging an `Ok` value with an `Err` yields that `Ok` value in either argument
order (a failed branch never suppresses a successful one); merging `Ok(v1)`
with `Ok(v2)` yields `Ok(f(v1, v2))`; and merging two `Err`s yields the
second argument's error. -/
theorem merge_with_ok_err_ok_pair_err_second (α : Type) (f : α → α → α)
    (v v1 v2 : α) (e e1 e2 : NoSolution) :
    Fallible.merge_with (.error e) (.ok v) f = .ok v ∧
    Fallible.merge_with (.ok v) (.error e) f = .ok v ∧
    Fallible.merge_with (.ok v1) (.ok v2) f = .ok (f v1 v2) ∧
    Fallible.merge_with (.error e1) (.error e2) f = .error e2 :=
  ⟨rfl, rfl, rfl, rfl⟩

/-- Claim C7: for a fixed program and fixed configuration, `solve_root_goal`
run in two independent fresh contexts (each built by `RecursiveContext.new`
with the same overflow depth and caching flag) yields identical results for
every goal: the engine is deterministic given its deterministic database
collaborator. -/
theorem solve_root_goal_deterministic (p : Program) (fuel overflow_depth : Nat)
    (caching : Bool) (g : UCanonicalGoal) (ctx1 ctx2 : RecursiveContext)
    (h1 : ctx1 = RecursiveContext.new overflow_depth caching)
    (h2 : ctx2 = RecursiveContext.new overflow_depth caching) :
    solve_root_goal p fuel ctx1 g = solve_root_goal p fuel ctx2 g := by
  rw [h1, h2]

/-- A one-fact program used to witness determinism. -/
def exProgramFact : Program :=
  ⟨fun g => if g.id = 0 then [⟨[], []⟩] else [], fun _ => false⟩

/-- Witness for C7 at a concrete fresh pair of contexts. -/
theorem solve_root_goal_deterministic_witness :
    (RecursiveContext.new 4 true : RecursiveContext) = RecursiveContext.new 4 true ∧
    solve_root_goal exProgramFact 6 (RecursiveContext.new 4 true) ⟨0, 0⟩ =
      solve_root_goal exProgramFact 6 (RecursiveContext.new 4 true) ⟨0, 0⟩ :=
  ⟨rfl, solve_root_goal_deterministic exProgramFact 6 4 true ⟨0, 0⟩
    (RecursiveContext.new 4 true) (RecursiveContext.new 4 true) rfl rfl⟩

/-- Claim C1: when `solve_goal` misses the cache, finds an open search-graph
entry for the goal (it has a stack depth), and every stack entry from that
depth to the top is coinductive, it returns `Unique` with the trivial
(identity) substitution and empty residual constraints immediately: the
result holds at every fuel (in particular with no fuel left for recursion),
and the context — search graph, cache, stack — and the minimums accumulator
are returned unchanged, so the short-circuit result is recorded nowhere. -/
theorem coinductive_cycle_short_circuit (p : Program) (fuel : Nat)
    (ctx : RecursiveContext) (goal : UCanonicalGoal) (minimums : Minimums)
    (dfn depth : Nat)
    (hcache : cacheLookup ctx.cache goal = none)
    (hlookup : ctx.search_graph.lookup goal = some dfn)
    (hopen : (ctx.search_graph.get dfn).stack_depth = some depth)
    (hco : ctx.stack.coinductive_cycle_from depth = true) :
    solve_goal p (fuel + 1) ctx goal minimums =
      .ok (.ok (Solution.Unique ⟨⟨goal.trivial_substitution, []⟩, goal.binders⟩),
        ctx, minimums) := by
  rw [solve_goal, hcache, hlookup]
  simp only [hopen, hco, if_true]

/-- The program used in the coinductive short-circuit witness: every goal is
coinductive. -/
def exProgramCo : Program := ⟨fun _ => [], fun _ => true⟩

/-- The goal used in the coinductive short-circuit witness. -/
def exGoalCo : UCanonicalGoal := ⟨0, 2⟩

/-- A context in which `exGoalCo` is open at stack depth 0 with a coinductive
stack entry. -/
def exCtxCo : RecursiveContext :=
  ⟨⟨[⟨true, false⟩], 5⟩,
   ⟨[(0, ⟨exGoalCo, .error .noSolution, .High, ⟨some 0, none⟩, some 0⟩)], 1⟩,
   [], true⟩

/-- Witness for C1: a concrete open coinductive cycle takes the short-circuit
with fuel 1 and changes nothing. -/
theorem coinductive_cycle_short_circuit_witness :
    cacheLookup exCtxCo.cache exGoalCo = none ∧
    exCtxCo.search_graph.lookup exGoalCo = some 0 ∧
    (exCtxCo.search_graph.get 0).stack_depth = some 0 ∧
    exCtxCo.stack.coinductive_cycle_from 0 = true ∧
    solve_goal exProgramCo 1 exCtxCo exGoalCo Minimums.new =
      .ok (.ok (Solution.Unique ⟨⟨exGoalCo.trivial_substitution, []⟩, exGoalCo.binders⟩),
        exCtxCo, Minimums.new) :=
  ⟨rfl, rfl, rfl, rfl,
    coinductive_cycle_short_circuit exProgramCo 0 exCtxCo exGoalCo Minimums.new 0 0
      rfl rfl rfl rfl⟩

/-- Claim C8: when solving a newly discovered goal would push the stack
beyond the configured depth limit, `solve_goal` aborts with the fatal
overflow error, an outcome distinct from every normal return and in
particular from the unprovable (no-value) outcome. -/
theorem push_beyond_limit_overflows (p : Program) (fuel : Nat)
    (ctx : RecursiveContext) (goal : UCanonicalGoal) (minimums : Minimums)
    (hcache : cacheLookup ctx.cache goal = none)
    (hlookup : ctx.search_graph.lookup goal = none)
    (hfull : ctx.stack.entries.length ≥ ctx.stack.overflow_depth) :
    solve_goal p (fuel + 1) ctx goal minimums = .error .overflow ∧
    ∀ (s : Fallible Solution) (ctx' : RecursiveContext) (m' : Minimums),
      solve_goal p (fuel + 1) ctx goal minimums ≠ .ok (.error .noSolution, ctx', m') ∧
      solve_goal p (fuel + 1) ctx goal minimums ≠ .ok (s, ctx', m') := by
  have hpush : ctx.stack.push (p.goal_is_coinductive goal) = none := by
    rw [Stack.push, if_pos hfull]
  have hmain : solve_goal p (fuel + 1) ctx goal minimums = .error .overflow := by
    rw [solve_goal, hcache, hlookup]
    simp only [hpush]
  refine ⟨hmain, fun s ctx' m' => ⟨?_, ?_⟩⟩ <;> rw [hmain] <;> simp

/-- The program of the overflow witness. -/
def exProgramOv : Program := ⟨fun _ => [], fun _ => false⟩

/-- A context whose stack is already at its configured limit of 2. -/
def exCtxOv : RecursiveContext :=
  ⟨⟨[⟨false, false⟩, ⟨false, false⟩], 2⟩, SearchGraph.new, [], true⟩

/-- Witness for C8: pushing a fresh goal on a full stack overflows. -/
theorem push_beyond_limit_overflows_witness :
    cacheLookup exCtxOv.cache (⟨7, 0⟩ : UCanonicalGoal) = none ∧
    exCtxOv.search_graph.lookup ⟨7, 0⟩ = none ∧
    exCtxOv.stack.entries.length ≥ exCtxOv.stack.overflow_depth ∧
    solve_goal exProgramOv 3 exCtxOv ⟨7, 0⟩ Minimums.new = .error .overflow :=
  ⟨rfl, rfl, by decide,
    (push_beyond_limit_overflows exProgramOv 2 exCtxOv ⟨7, 0⟩ Minimums.new
      rfl rfl (by decide)).1⟩

/-- No entry at or beyond `dfn` survives `rollback_to dfn`. -/
theorem find_filter_lt_none (l : List (Nat × Node)) (dfn d : Nat) (h : dfn ≤ d) :
    (l.filter (fun p => p.1 < dfn)).find? (fun p => p.1 = d) = none := by
  induction l with
  | nil => rfl
  | cons hd tl ih =>
    by_cases h1 : hd.1 < dfn
    · rw [List.filter_cons_of_pos (by simpa using h1)]
      rw [List.find?_cons_of_neg]
      · exact ih
      · simp
        omega
    · rw [List.filter_cons_of_neg (by simpa using h1)]
      exact ih

/-- `rollback_to dfn` removes entry `dfn` and every later entry. -/
theorem contains_rollback_to (sg : SearchGraph) (dfn d : Nat) (h : dfn ≤ d) :
    (sg.rollback_to dfn).contains d = false := by
  rw [SearchGraph.rollback_to, SearchGraph.contains]
  simp only [find_filter_lt_none sg.nodes dfn d h, Option.isSome_none]

/-- Claim C6: when the goal's own cycle flag is found unset after an
iteration (no deeper goal looped back to it), the loop stores that
iteration's candidate solution and priority as final in the goal's
search-graph entry and returns that iteration's minimums immediately; the
traced loop records exactly one iteration. -/
theorem loop_flag_unset_stores_final (p : Program) (sg : SolveFn) (fuel : Nat)
    (ctx : RecursiveContext) (goal : UCanonicalGoal) (depth dfn : Nat)
    (ans : Fallible Solution) (prio : ClausePriority) (ctx1 : RecursiveContext)
    (m1 : Minimums)
    (hiter : solve_iteration p sg ctx goal Minimums.new = .ok ((ans, prio), ctx1, m1))
    (hflag : (ctx1.stack.read_and_reset_cycle_flag depth).1 = false) :
    solve_new_subgoal p sg (fuel + 1) ctx goal depth dfn =
      .ok (m1,
        { ctx1 with
          stack := (ctx1.stack.read_and_reset_cycle_flag depth).2,
          search_graph := ctx1.search_graph.set_solution dfn ans prio }) ∧
    solve_new_subgoal_traced p sg (fuel + 1) ctx goal depth dfn =
      .ok ((m1,
        { ctx1 with
          stack := (ctx1.stack.read_and_reset_cycle_flag depth).2,
          search_graph := ctx1.search_graph.set_solution dfn ans prio }),
        1, [ans]) := by
  constructor
  · rw [solve_new_subgoal]
    simp only [hiter]
    rw [if_pos hflag]
  · rw [solve_new_subgoal_traced]
    simp only [hiter]
    rw [if_pos hflag]

/-- The program of the C6 witness: one fact for the goal. -/
def exProgramC6 : Program :=
  ⟨fun g => if g.id = 0 then [⟨[], [3]⟩] else [], fun _ => false⟩

/-- The C6 witness context: the goal `⟨0,0⟩` freshly pushed and inserted. -/
def exCtxC6 : RecursiveContext :=
  ⟨⟨[⟨false, false⟩], 5⟩,
   ⟨[(0, ⟨⟨0, 0⟩, .error .noSolution, .High, ⟨some 0, none⟩, some 0⟩)], 1⟩,
   [], true⟩

/-- Witness for C6: a one-fact goal closes its loop in a single iteration and
stores the unique answer as final. -/
theorem loop_flag_unset_stores_final_witness :
    solve_iteration exProgramC6 (fun c g m => solve_goal exProgramC6 4 c g m)
        exCtxC6 ⟨0, 0⟩ Minimums.new =
      .ok ((.ok (Solution.Unique ⟨⟨[3], []⟩, 0⟩), .High), exCtxC6, Minimums.new) ∧
    solve_new_subgoal exProgramC6 (fun c g m => solve_goal exProgramC6 4 c g m)
        5 exCtxC6 ⟨0, 0⟩ 0 0 =
      .ok (Minimums.new,
        { exCtxC6 with
          stack := (exCtxC6.stack.read_and_reset_cycle_flag 0).2,
          search_graph := exCtxC6.search_graph.set_solution 0
            (.ok (Solution.Unique ⟨⟨[3], []⟩, 0⟩)) .High }) :=
  ⟨by decide,
    (loop_flag_unset_stores_final exProgramC6
      (fun c g m => solve_goal exProgramC6 4 c g m) 4 exCtxC6 ⟨0, 0⟩ 0 0
      (.ok (Solution.Unique ⟨⟨[3], []⟩, 0⟩)) .High exCtxC6 Minimums.new
      (by decide) (by decide)).1⟩

/-- Claim C5: in an iteration whose candidate differs from the stored
tentative solution (and whose cycle flag was set), the candidate and its
priority are stored; if the candidate is ambiguous the loop returns
immediately with the context as stored (no rollback), and otherwise the next
iteration runs on the context rolled back to `dfn + 1`, in which every
search-graph entry with DFN greater than the goal's has been removed. -/
theorem loop_stores_new_candidate (p : Program) (sg : SolveFn) (fuel : Nat)
    (ctx : RecursiveContext) (goal : UCanonicalGoal) (depth dfn : Nat)
    (ans : Fallible Solution) (prio : ClausePriority) (ctx1 : RecursiveContext)
    (m1 : Minimums)
    (hiter : solve_iteration p sg ctx goal Minimums.new = .ok ((ans, prio), ctx1, m1))
    (hflag : (ctx1.stack.read_and_reset_cycle_flag depth).1 = true)
    (hfix : (ctx1.search_graph.get dfn).solution ≠ ans) :
    solve_new_subgoal p sg (fuel + 1) ctx goal depth dfn =
      (if fallible_is_ambig ans = true then
        .ok (m1,
          { ctx1 with
            stack := (ctx1.stack.read_and_reset_cycle_flag depth).2,
            search_graph := ctx1.search_graph.set_solution dfn ans prio })
      else
        solve_new_subgoal p sg fuel
          { ctx1 with
            stack := (ctx1.stack.read_and_reset_cycle_flag depth).2,
            search_graph :=
              (ctx1.search_graph.set_solution dfn ans prio).rollback_to (dfn + 1) }
          goal depth dfn) ∧
    (∀ d, dfn < d →
      ((ctx1.search_graph.set_solution dfn ans prio).rollback_to (dfn + 1)).contains d =
        false) := by
  constructor
  · rw [solve_new_subgoal]
    simp only [hiter]
    rw [if_neg (by simp [hflag]), if_neg hfix]
  · intro d hd
    exact contains_rollback_to _ (dfn + 1) d (by omega)

/-- The program of the C5 witness: two distinct facts plus a self-rule, so
one iteration produces an ambiguous candidate while flagging the cycle. -/
def exProgramC5 : Program :=
  ⟨fun g => if g.id = 0 then [⟨[], [1]⟩, ⟨[], [2]⟩, ⟨[⟨0, 1⟩], [1]⟩] else [],
   fun _ => false⟩

/-- The C5 witness context: the goal `⟨0,1⟩` freshly pushed and inserted. -/
def exCtxC5 : RecursiveContext :=
  ⟨⟨[⟨false, false⟩], 5⟩,
   ⟨[(0, ⟨⟨0, 1⟩, .error .noSolution, .High, ⟨some 0, none⟩, some 0⟩)], 1⟩,
   [], true⟩

/-- Witness for C5 at a concrete ambiguous iteration with its cycle flag
set. -/
theorem loop_stores_new_candidate_witness :
    (∃ ctx1 : RecursiveContext,
      solve_iteration exProgramC5 (fun c g m => solve_goal exProgramC5 4 c g m)
          exCtxC5 ⟨0, 1⟩ Minimums.new =
        .ok ((.ok Solution.Ambig, .High), ctx1, Minimums.new.update_from ⟨some 0, none⟩) ∧
      (ctx1.stack.read_and_reset_cycle_flag 0).1 = true) ∧
    solve_new_subgoal exProgramC5 (fun c g m => solve_goal exProgramC5 4 c g m)
        5 exCtxC5 ⟨0, 1⟩ 0 0 =
      .ok (Minimums.new.update_from ⟨some 0, none⟩,
        { exCtxC5 with
          stack := ⟨[⟨false, false⟩], 5⟩,
          search_graph := exCtxC5.search_graph.set_solution 0 (.ok Solution.Ambig) .High }) := by
  refine ⟨⟨⟨⟨[⟨false, true⟩], 5⟩, exCtxC5.search_graph, [], true⟩, by decide, by decide⟩, ?_⟩
  have h := (loop_stores_new_candidate exProgramC5
    (fun c g m => solve_goal exProgramC5 4 c g m) 4 exCtxC5 ⟨0, 1⟩ 0 0
    (.ok Solution.Ambig) .High ⟨⟨[⟨false, true⟩], 5⟩, exCtxC5.search_graph, [], true⟩
    (Minimums.new.update_from ⟨some 0, none⟩)
    (by decide) (by decide) (by decide)).1
  rw [h]
  decide

/-- `modify` rewrites the node stored under `dfn` and leaves keys alone. -/
theorem find_map_modify (l : List (Nat × Node)) (dfn d : Nat) (f : Node → Node) :
    (l.map (fun p => if p.1 = dfn then (p.1, f p.2) else p)).find?
        (fun p => p.1 = d) =
      (l.find? (fun p => p.1 = d)).map
        (fun p => if p.1 = dfn then (p.1, f p.2) else p) := by
  induction l with
  | nil => rfl
  | cons hd tl ih =>
    have hkey : ((if hd.1 = dfn then (hd.1, f hd.2) else hd) : Nat × Node).1 = hd.1 := by
      by_cases h2 : hd.1 = dfn <;> simp [h2]
    by_cases hd1 : hd.1 = d
    · rw [List.map_cons,
        List.find?_cons_of_pos _ (by subst hd1; simpa using hkey),
        List.find?_cons_of_pos _ (by simp [hd1])]
      rfl
    · rw [List.map_cons, List.find?_cons_of_neg _ (by simp [hkey, hd1]),
        List.find?_cons_of_neg _ (by simp [hd1])]
      exact ih

/-- `modify` does not change which DFNs are present. -/
theorem contains_modify (sg : SearchGraph) (dfn d : Nat) (f : Node → Node) :
    (sg.modify dfn f).contains d = sg.contains d := by
  rw [SearchGraph.contains, SearchGraph.modify, SearchGraph.contains]
  simp only [find_map_modify]
  cases List.find? (fun p => decide (p.1 = d)) sg.nodes <;> rfl

/-- Reading back the modified entry applies `f` to the stored node. -/
theorem get_modify_self (sg : SearchGraph) (dfn : Nat) (f : Node → Node)
    (h : sg.contains dfn = true) :
    (sg.modify dfn f).get dfn = f (sg.get dfn) := by
  rw [SearchGraph.contains] at h
  obtain ⟨pr, hpr⟩ := Option.isSome_iff_exists.mp h
  have hkey : pr.1 = dfn := by
    have := List.find?_some hpr
    simpa using this
  rw [SearchGraph.get, SearchGraph.modify, SearchGraph.get]
  simp only [find_map_modify, hpr, Option.map_some, hkey, if_true, Option.map_some,
    Option.getD_some]
  simp [hkey]

/-- No entry keyed `dfn` survives filtering the key away. -/
theorem find_filter_ne_none (l : List (Nat × Node)) (dfn : Nat) :
    (l.filter (fun p => p.1 ≠ dfn)).find? (fun p => p.1 = dfn) = none := by
  induction l with
  | nil => rfl
  | cons hd tl ih =>
    by_cases h1 : hd.1 = dfn
    · rw [List.filter_cons_of_neg (by simp [h1])]
      exact ih
    · rw [List.filter_cons_of_pos (by simp [h1]), List.find?_cons_of_neg _ (by simp [h1])]
      exact ih

/-- On a present entry, `move_to_cache` removes exactly that entry and
prepends its goal and solution to the cache. -/
theorem move_to_cache_of_contains (sg : SearchGraph) (dfn : Nat) (cache : Cache)
    (h : sg.contains dfn = true) :
    sg.move_to_cache dfn cache =
      (⟨sg.nodes.filter (fun p => p.1 ≠ dfn), sg.next_dfn⟩,
        ((sg.get dfn).goal, (sg.get dfn).solution) :: cache) := by
  rw [SearchGraph.contains] at h
  obtain ⟨pr, hpr⟩ := Option.isSome_iff_exists.mp h
  rw [SearchGraph.move_to_cache]
  simp only [hpr, SearchGraph.get]
  rfl

/-- A freshly inserted cache pair is found by lookup. -/
theorem cacheLookup_cons_self (c : Cache) (g : UCanonicalGoal) (v : Fallible Solution) :
    cacheLookup ((g, v) :: c) g = some v := by
  rw [cacheLookup, List.find?_cons_of_pos _ (by simp)]
  rfl

/-- Claim C2: after a newly discovered goal's fixed-point loop closes, if the
accumulated positive minimums bound is ≥ the goal's own DFN then the goal's
search-graph entry is promoted into the cache (entry gone from the graph,
its solution retrievable from the cache) when caching is enabled, and rolled
back — removed with the cache untouched — when caching is disabled; if the
bound is below the goal's DFN the entry is neither cached nor removed but
left in the search graph. -/
theorem cache_or_rollback_decision (p : Program) (fuel : Nat)
    (ctx : RecursiveContext) (goal : UCanonicalGoal) (minimums : Minimums)
    (stack1 : Stack) (depth : Nat) (graph1 : SearchGraph) (dfn : Nat)
    (subg : Minimums) (ctx2 : RecursiveContext)
    (hcache : cacheLookup ctx.cache goal = none)
    (hlookup : ctx.search_graph.lookup goal = none)
    (hpush : ctx.stack.push (p.goal_is_coinductive goal) = some (stack1, depth))
    (hins : ctx.search_graph.insert goal depth = (graph1, dfn))
    (hloop : solve_new_subgoal p (fun c g m => solve_goal p fuel c g m) fuel
        { ctx with stack := stack1, search_graph := graph1 } goal depth dfn =
      .ok (subg, ctx2))
    (hcontains : ctx2.search_graph.contains dfn = true)
    (hgoal : (ctx2.search_graph.get dfn).goal = goal) :
    ∃ (res : Fallible Solution) (ctxF : RecursiveContext),
      solve_goal p (fuel + 1) ctx goal minimums =
        .ok (res, ctxF, minimums.update_from subg) ∧
      (dfnLeBound dfn subg.positive = true → ctx2.caching_enabled = true →
        ctxF.search_graph.contains dfn = false ∧
        cacheLookup ctxF.cache goal = some res) ∧
      (dfnLeBound dfn subg.positive = true → ctx2.caching_enabled = false →
        ctxF.search_graph.contains dfn = false ∧ ctxF.cache = ctx2.cache) ∧
      (dfnLeBound dfn subg.positive = false →
        ctxF.search_graph.contains dfn = true ∧ ctxF.cache = ctx2.cache) := by
  have hmain :
      solve_goal p (fuel + 1) ctx goal minimums =
        .ok
          (((ctx2.search_graph.modify dfn
              (fun n => { n with links := subg, stack_depth := none })).get dfn).solution,
           (if dfnLeBound dfn subg.positive = true then
              if ctx2.caching_enabled = true then
                { ctx2 with
                  stack := ctx2.stack.pop depth,
                  search_graph :=
                    ((ctx2.search_graph.modify dfn
                      (fun n => { n with links := subg, stack_depth := none })).move_to_cache
                        dfn ctx2.cache).1,
                  cache :=
                    ((ctx2.search_graph.modify dfn
                      (fun n => { n with links := subg, stack_depth := none })).move_to_cache
                        dfn ctx2.cache).2 }
              else
                { ctx2 with
                  stack := ctx2.stack.pop depth,
                  search_graph :=
                    (ctx2.search_graph.modify dfn
                      (fun n => { n with links := subg, stack_depth := none })).rollback_to
                      dfn }
            else
              { ctx2 with
                stack := ctx2.stack.pop depth,
                search_graph :=
                  ctx2.search_graph.modify dfn
                    (fun n => { n with links := subg, stack_depth := none }) }),
           minimums.update_from subg) := by
    rw [solve_goal, hcache, hlookup]
    simp only [hpush, hins, hloop]
  set g3 := ctx2.search_graph.modify dfn
    (fun n => { n with links := subg, stack_depth := none }) with hg3def
  have hcont3 : g3.contains dfn = true := by
    rw [hg3def, contains_modify]
    exact hcontains
  have hget3 : g3.get dfn =
      { ctx2.search_graph.get dfn with links := subg, stack_depth := none } := by
    rw [hg3def, get_modify_self _ _ _ hcontains]
  refine ⟨(g3.get dfn).solution, _, hmain, ?_, ?_, ?_⟩
  · intro hb hc
    rw [if_pos hb, if_pos hc]
    have hmove := move_to_cache_of_contains g3 dfn ctx2.cache hcont3
    rw [hmove]
    constructor
    · rw [SearchGraph.contains]
      simp only [find_filter_ne_none, Option.isSome_none]
    · have : (g3.get dfn).goal = goal := by
        rw [hget3]
        exact hgoal
      rw [← this]
      exact cacheLookup_cons_self _ _ _
  · intro hb hc
    rw [if_pos hb, if_neg (by simp [hc])]
    exact ⟨contains_rollback_to g3 dfn dfn (Nat.le_refl dfn), rfl⟩
  · intro hb
    rw [if_neg (by simp [hb])]
    exact ⟨hcont3, rfl⟩

/-- The program of the C2 witness: one fact for goal 0. -/
def exProgramC2 : Program :=
  ⟨fun g => if g.id = 0 then [⟨[], [5]⟩] else [], fun _ => false⟩

/-- The context in which the C2 witness goal's loop has closed: the unique
answer is stored in the goal's still-present search-graph entry. -/
def exCtx2C2 : RecursiveContext :=
  ⟨⟨[⟨false, false⟩], 5⟩,
   ⟨[(0, ⟨⟨0, 0⟩, .ok (Solution.Unique ⟨⟨[5], []⟩, 0⟩), .High, ⟨some 0, none⟩,
      some 0⟩)], 1⟩,
   [], true⟩

/-- Witness for C2: solving a self-contained one-fact goal in a fresh
caching-enabled context promotes its entry to the cache. -/
theorem cache_or_rollback_decision_witness :
    (cacheLookup (RecursiveContext.new 5 true).cache ⟨0, 0⟩ = none ∧
     (RecursiveContext.new 5 true).search_graph.lookup ⟨0, 0⟩ = none ∧
     (RecursiveContext.new 5 true).stack.push
        (exProgramC2.goal_is_coinductive ⟨0, 0⟩) =
       some (⟨[⟨false, false⟩], 5⟩, 0) ∧
     (RecursiveContext.new 5 true).search_graph.insert ⟨0, 0⟩ 0 =
       (⟨[(0, ⟨⟨0, 0⟩, .error .noSolution, .High, ⟨some 0, none⟩, some 0⟩)], 1⟩, 0) ∧
     solve_new_subgoal exProgramC2 (fun c g m => solve_goal exProgramC2 4 c g m) 4
        { RecursiveContext.new 5 true with
          stack := ⟨[⟨false, false⟩], 5⟩,
          search_graph :=
            ⟨[(0, ⟨⟨0, 0⟩, .error .noSolution, .High, ⟨some 0, none⟩, some 0⟩)], 1⟩ }
        ⟨0, 0⟩ 0 0 =
       .ok (Minimums.new, exCtx2C2) ∧
     exCtx2C2.search_graph.contains 0 = true ∧
     (exCtx2C2.search_graph.get 0).goal = ⟨0, 0⟩) ∧
    (∃ (res : Fallible Solution) (ctxF : RecursiveContext),
      solve_goal exProgramC2 (4 + 1) (RecursiveContext.new 5 true) ⟨0, 0⟩
          Minimums.new =
        .ok (res, ctxF, Minimums.new.update_from Minimums.new) ∧
      (dfnLeBound 0 Minimums.new.positive = true → exCtx2C2.caching_enabled = true →
        ctxF.search_graph.contains 0 = false ∧
        cacheLookup ctxF.cache ⟨0, 0⟩ = some res) ∧
      (dfnLeBound 0 Minimums.new.positive = true → exCtx2C2.caching_enabled = false →
        ctxF.search_graph.contains 0 = false ∧ ctxF.cache = exCtx2C2.cache) ∧
      (dfnLeBound 0 Minimums.new.positive = false →
        ctxF.search_graph.contains 0 = true ∧ ctxF.cache = exCtx2C2.cache)) :=
  ⟨⟨rfl, rfl, rfl, rfl, by decide, rfl, rfl⟩,
    cache_or_rollback_decision exProgramC2 4 (RecursiveContext.new 5 true) ⟨0, 0⟩
      Minimums.new ⟨[⟨false, false⟩], 5⟩ 0
      ⟨[(0, ⟨⟨0, 0⟩, .error .noSolution, .High, ⟨some 0, none⟩, some 0⟩)], 1⟩ 0
      Minimums.new exCtx2C2 rfl rfl rfl rfl (by decide) rfl rfl⟩

/-- The program on which cache transparency fails.  Goals `A = ⟨0,0⟩`,
`B = ⟨1,0⟩`, `C = ⟨2,0⟩`, none coinductive, with the derivations
`A :- B, C`; `B :- ⊤ (answer 0)`, `B :- C`, `B :- ⊤ (answer 1)`; `C :- B`.
Solving `A` first resolves the SCC `{B, C}` headed by `B`: its loop stops
early on an ambiguous candidate, leaving `C`'s entry holding the stale value
computed against `B`'s pre-ambiguity tentative answer; with caching enabled
that stale value is then consulted for `A`'s second subgoal, while with
caching disabled `C` is recomputed from scratch. -/
def exProgramBug : Program :=
  ⟨fun g =>
    if g = ⟨0, 0⟩ then [⟨[⟨1, 0⟩, ⟨2, 0⟩], [0]⟩]
    else if g = ⟨1, 0⟩ then [⟨[], [0]⟩, ⟨[⟨2, 0⟩], [0]⟩, ⟨[], [1]⟩]
    else if g = ⟨2, 0⟩ then [⟨[⟨1, 0⟩], [0]⟩] else [],
   fun _ => false⟩

/-- Claim C3 (violated by the code): on `exProgramBug` with ample fuel and a
generous depth limit, `solve_root_goal` from a fresh caching-enabled context
returns the no-value failure while the identical query from a fresh
caching-disabled context returns `Ambiguous` — caching changes the answer. -/
theorem cache_transparency_fails_on_ambiguous_scc :
    (solve_root_goal exProgramBug 20 (RecursiveContext.new 10 true) ⟨0, 0⟩).map
        (·.1) = .ok (.error .noSolution) ∧
    (solve_root_goal exProgramBug 20 (RecursiveContext.new 10 false) ⟨0, 0⟩).map
        (·.1) = .ok (.ok .Ambig) ∧
    ((.ok (.error .noSolution) : Except Abort (Fallible Solution)) ≠
      .ok (.ok .Ambig)) := by
  refine ⟨by decide, by decide, by decide⟩

/-- The C4 counterexample program: one goal `⟨0,0⟩` with a fact and a
self-referential rule, so the only cycle contains exactly one goal. -/
def exProgramC4 : Program :=
  ⟨fun g => if g.id = 0 then [⟨[], [0]⟩, ⟨[⟨0, 0⟩], [0]⟩] else [],
   fun _ => false⟩

/-- The C4 context: goal `⟨0,0⟩` freshly pushed and inserted. -/
def exCtxC4 : RecursiveContext :=
  ⟨⟨[⟨false, false⟩], 5⟩,
   ⟨[(0, ⟨⟨0, 0⟩, .error .noSolution, .High, ⟨some 0, none⟩, some 0⟩)], 1⟩,
   [], true⟩

/-- Counterexample to claim C4 as stated: on `exProgramC4` the only cycle
contains a single goal, so the claimed bound is one iteration, yet the
fixed-point loop runs two iterations (one computing the answer under the
initial error tentative, one confirming the fixed point). -/
theorem loop_iterations_exceed_cycle_size :
    (solve_new_subgoal_traced exProgramC4
        (fun c g m => solve_goal exProgramC4 8 c g m) 8 exCtxC4 ⟨0, 0⟩ 0 0).map
        (fun t => t.2.1) = .ok 2 ∧
    ¬(2 ≤ 1) := by
  refine ⟨by decide, by decide⟩

/-- Claim C4 as amended: the fixed-point loop of `solve_new_subgoal` runs at
most one iteration more than the number of tentative solutions it stores,
and whenever the stored tentative solutions strictly advance the partial
order no-value < Unique < Ambiguous (the premise of the spec's own
termination argument), the loop terminates within 3 iterations — the height
of that order — rather than within the number of goals in the cycle. -/
theorem loop_iterations_bounded_by_order_height (p : Program) (sg : SolveFn)
    (fuel : Nat) (ctx : RecursiveContext) (goal : UCanonicalGoal)
    (depth dfn : Nat) (res : Minimums × RecursiveContext) (iters : Nat)
    (trace : List (Fallible Solution))
    (hrun : solve_new_subgoal_traced p sg fuel ctx goal depth dfn =
      .ok (res, iters, trace))
    (hmono : List.Chain' (fun a b => ordRank a < ordRank b)
      ((ctx.search_graph.get dfn).solution :: trace)) :
    iters ≤ 3 := by
  have h1 := iters_le_trace_length p sg fuel ctx goal depth dfn res iters trace hrun
  have h2 := chain_lt_length_le _ hmono
  simp only [List.length_cons] at h2
  omega

/-- Witness for the amended C4 at the concrete two-iteration run. -/
theorem loop_iterations_bounded_by_order_height_witness :
    solve_new_subgoal_traced exProgramC4
        (fun c g m => solve_goal exProgramC4 8 c g m) 8 exCtxC4 ⟨0, 0⟩ 0 0 =
      .ok ((⟨some 0, none⟩,
        ⟨⟨[⟨false, false⟩], 5⟩,
         ⟨[(0, ⟨⟨0, 0⟩, .ok (Solution.Unique ⟨⟨[0], []⟩, 0⟩), .High,
            ⟨some 0, none⟩, some 0⟩)], 1⟩, [], true⟩),
        2, [.ok (Solution.Unique ⟨⟨[0], []⟩, 0⟩)]) ∧
    2 ≤ 3 :=
  ⟨by decide,
    loop_iterations_bounded_by_order_height exProgramC4
      (fun c g m => solve_goal exProgramC4 8 c g m) 8 exCtxC4 ⟨0, 0⟩ 0 0
      (⟨some 0, none⟩,
        ⟨⟨[⟨false, false⟩], 5⟩,
         ⟨[(0, ⟨⟨0, 0⟩, .ok (Solution.Unique ⟨⟨[0], []⟩, 0⟩), .High,
            ⟨some 0, none⟩, some 0⟩)], 1⟩, [], true⟩)
      2 [.ok (Solution.Unique ⟨⟨[0], []⟩, 0⟩)]
      (by decide)
      (by simp [exCtxC4, SearchGraph.get, ordRank, List.chain'_cons,
        List.chain'_singleton])⟩

/-- The first goal of the constructed mutually dependent pair: `A`, whose
only derivation is `A :- B` with answer substitution `sa`. -/
def pairGoalA : UCanonicalGoal := ⟨0, 1⟩

/-- The second goal of the constructed pair: `B`, with the back edge
`B :- A` (answer `sb`) and a base fact (answer `sc`). -/
def pairGoalB : UCanonicalGoal := ⟨1, 1⟩

/-- The family of programs realizing the mutually dependent pair
`A → B → A`, parameterized by the three answer substitutions. -/
def pairProgram (sa sb sc : Subst) : Program :=
  ⟨fun g =>
    if g = pairGoalA then [⟨[pairGoalB], sa⟩]
    else if g = pairGoalB then [⟨[pairGoalA], sb⟩, ⟨[], sc⟩] else [],
   fun _ => false⟩

/-- The initial context of the pair runs: `A` freshly pushed and inserted in
a fresh context. -/
def pairCtx : RecursiveContext :=
  ⟨⟨[⟨false, false⟩], 5⟩,
   ⟨[(0, ⟨pairGoalA, .error .noSolution, .High, ⟨some 0, none⟩, some 0⟩)], 1⟩,
   [], true⟩

/-- Claim C9: for every instance of the constructed mutually dependent pair
`A → B → A` (any answer substitutions, any surplus fuel), the sequence of
tentative solutions stored for `A` across the fixed-point iterations —
starting from the initial no-value entry — is non-decreasing in the order
no value ≤ Unique ≤ Ambiguous, and the loop converges in exactly 2
iterations, the size of the cycle. -/
theorem pair_fixed_point_monotone (sa sb sc : Subst) (f : Nat) :
    ∃ (res : Minimums × RecursiveContext) (trace : List (Fallible Solution)),
      solve_new_subgoal_traced (pairProgram sa sb sc)
          (fun c g m => solve_goal (pairProgram sa sb sc) (f + 8) c g m)
          (f + 8) pairCtx pairGoalA 0 0 =
        .ok (res, 2, trace) ∧
      List.Chain' (fun a b => ordRank a ≤ ordRank b)
        (.error .noSolution :: trace) ∧
      2 ≤ 2 := by
  by_cases h : sb = sc
  · subst h
    refine ⟨(⟨some 0, none⟩,
      ⟨⟨[⟨false, false⟩], 5⟩,
       ⟨[(0, ⟨pairGoalA, .ok (Solution.Unique ⟨⟨sa, []⟩, 1⟩), .High,
          ⟨some 0, none⟩, some 0⟩),
         (2, ⟨pairGoalB, .ok (Solution.Unique ⟨⟨sb, []⟩, 1⟩), .High,
          ⟨some 0, none⟩, none⟩)], 3⟩, [], true⟩),
      [.ok (Solution.Unique ⟨⟨sa, []⟩, 1⟩)], ?_, ?_, le_refl 2⟩
    · simp [solve_new_subgoal_traced, solve_iteration, solve_candidates,
        solve_subgoals, solve_goal, solve_new_subgoal, pairProgram, pairCtx,
        pairGoalA, pairGoalB, cacheLookup, SearchGraph.lookup, SearchGraph.get,
        SearchGraph.insert, SearchGraph.modify, SearchGraph.set_solution,
        SearchGraph.rollback_to, SearchGraph.move_to_cache, SearchGraph.contains,
        Stack.push, Stack.pop, Stack.read_and_reset_cycle_flag, Stack.flag_cycle,
        Stack.coinductive_cycle_from, Stack.is_empty, Minimums.new,
        Minimums.update_from, minDfn, dfnLeBound, Fallible.merge_with,
        combine_with_priority, rule_solution, fallible_is_ambig,
        Solution.is_ambig, UCanonicalGoal.trivial_substitution]
    · simp [List.chain'_cons, ordRank]
  · refine ⟨(⟨some 0, none⟩,
      ⟨⟨[⟨false, false⟩], 5⟩,
       ⟨[(0, ⟨pairGoalA, .ok .Ambig, .High, ⟨some 0, none⟩, some 0⟩),
         (2, ⟨pairGoalB, .ok .Ambig, .High, ⟨some 0, none⟩, none⟩)], 3⟩,
       [], true⟩),
      [.ok (Solution.Unique ⟨⟨sa, []⟩, 1⟩), .ok .Ambig], ?_, ?_, le_refl 2⟩
    · simp [solve_new_subgoal_traced, solve_iteration, solve_candidates,
        solve_subgoals, solve_goal, solve_new_subgoal, pairProgram, pairCtx,
        pairGoalA, pairGoalB, cacheLookup, SearchGraph.lookup, SearchGraph.get,
        SearchGraph.insert, SearchGraph.modify, SearchGraph.set_solution,
        SearchGraph.rollback_to, SearchGraph.move_to_cache, SearchGraph.contains,
        Stack.push, Stack.pop, Stack.read_and_reset_cycle_flag, Stack.flag_cycle,
        Stack.coinductive_cycle_from, Stack.is_empty, Minimums.new,
        Minimums.update_from, minDfn, dfnLeBound, Fallible.merge_with,
        combine_with_priority, rule_solution, fallible_is_ambig,
        Solution.is_ambig, UCanonicalGoal.trivial_substitution, h]
    · simp [List.chain'_cons, ordRank]

end ChalkRecursive
